import Mathlib

/-!
Verification of the mgmigrate relational-to-graph migration core.

The definitions below are a shallow embedding of the C++ sources:
  * the value model (mgclient Value / Map),
  * `SchemaInfo` (source/schema_info.hpp),
  * the migration planner in main.cpp (`IsTableRelationship`, `GetTableName`,
    `ConstructForeignKeyMatcher`, `IsForeignKeyMatcherWellDefined`,
    `MigrateSqlDatabase`),
  * the graph-emission layer (memgraph_destination.cpp: `EscapeName`,
    `ParamsBuilder`, the statement builders and their client-call protocol),
  * the unique-constraint grouping loops of the MySQL and PostgreSQL
    schema reflectors (source/mysql.cpp, source/postgresql.cpp).

`Option` models the hard CHECK aborts and C++ out-of-bounds accesses of the
planner: `none` is a fatal abort, `some` a normal outcome.  `Except` models
the reflector paths that abort with LOG(FATAL)/CHECK.
-/

namespace Mgmigrate

/-- The mgclient tagged value (mg::Value): null, bool, int64, double, string,
list of values, ordered map of string keys to values.  The double payload is
kept opaque (its bit pattern); the migration core never inspects doubles. -/
inductive MgValue where
  | null
  | boolean (b : Bool)
  | integer (n : Int)
  | double (bits : Nat)
  | str (s : String)
  | list (items : List MgValue)
  | map (entries : List (String × MgValue))

/-- mg::Map with `InsertUnsafe`: an insertion-ordered association list. -/
abbrev MgMap := List (String × MgValue)

/-- One converted source row: a sequence of values positionally aligned with
the table's column list. -/
abbrev Row := List MgValue

/-- SchemaInfo::Table (source/schema_info.hpp). -/
structure Table where
  schema : String
  name : String
  columns : List String
  primary_key : List Nat
  foreign_keys : List Nat
  primary_key_referenced : Bool

/-- SchemaInfo::ForeignKey (source/schema_info.hpp). -/
structure ForeignKey where
  child_table : Nat
  parent_table : Nat
  child_columns : List Nat
  parent_columns : List Nat

/-- SchemaInfo (source/schema_info.hpp).  A unique constraint is a pair of a
table index and the list of its column indexes; an existence constraint is a
pair of a table index and a column index. -/
structure SchemaInfo where
  tables : List Table
  foreign_keys : List ForeignKey
  unique_constraints : List (Nat × List Nat)
  existence_constraints : List (Nat × Nat)

/-- main.cpp `IsTableRelationship`: a table is represented as relationships
iff it has exactly two outgoing foreign keys and its primary key is not
referenced by any foreign key. -/
def IsTableRelationship (table : Table) : Bool :=
  table.foreign_keys.length == 2 && !table.primary_key_referenced

/-- main.cpp `GetTableName`: the name used for labels and edge types.  The
code special-cases only the literal schema name "public". -/
def GetTableName (table : Table) : String :=
  if table.schema == ("public") then table.name
  else table.schema ++ ("_") ++ table.name

/-- Modelled from the spec (section 4.F.2): a table is a relationship table
iff it has exactly two outgoing foreign keys and its
`primary_key_referenced` flag is false. -/
def SpecRelationshipTable (table : Table) : Prop :=
  table.foreign_keys.length = 2 ∧ table.primary_key_referenced = false

/-- Modelled from the spec (section 4.F.1): the canonical name is the bare
table name when the table's schema is the dialect's default schema, and
`schema_name` otherwise. -/
def specCanonicalName (default_schema : String) (table : Table) : String :=
  if table.schema = default_schema then table.name
  else table.schema ++ ("_") ++ table.name

/-- C1: the planner classifies a table as a relationship table iff it has
exactly two outgoing foreign keys and its `primary_key_referenced` flag is
false; every other table is treated as a node table. -/
theorem classification_iff_two_fks_and_pk_unreferenced (table : Table) :
    IsTableRelationship table = true ↔ SpecRelationshipTable table := by
  unfold IsTableRelationship SpecRelationshipTable
  constructor
  · intro h
    simp only [Bool.and_eq_true, beq_iff_eq, Bool.not_eq_true'] at h
    exact h
  · intro h
    simp only [Bool.and_eq_true, beq_iff_eq, Bool.not_eq_true']
    exact h

/-- C7 counterexample: for a MySQL connection whose default database is
"mydb", the canonical name claimed by the spec for a table of that default
database is the bare table name, but `GetTableName` (which special-cases
only "public") produces "mydb_users". -/
theorem canonical_name_ignores_mysql_default_database :
    GetTableName (Table.mk ("mydb") ("users") [] [] [] false) = ("mydb_users")
    ∧ specCanonicalName ("mydb") (Table.mk ("mydb") ("users") [] [] [] false)
        = ("users")
    ∧ GetTableName (Table.mk ("mydb") ("users") [] [] [] false)
        ≠ specCanonicalName ("mydb") (Table.mk ("mydb") ("users") [] [] [] false) := by
  refine ⟨rfl, rfl, ?_⟩
  decide

/-- C7 amended: for every table the canonical name equals the bare table
name exactly when the schema is the literal string "public" (the PostgreSQL
default), and `schema_name` otherwise; the MySQL connection's default
database is not special-cased. -/
theorem canonical_name_is_public_defaulted (table : Table) :
    GetTableName table = specCanonicalName ("public") table := by
  unfold GetTableName specCanonicalName
  by_cases h : table.schema = ("public")
  · simp [h]
  · simp [h]

/-- Is a value the null value (mg::Value::Type::Null)? -/
def isNullValue : MgValue → Bool
  | MgValue.null => true
  | _ => false

/-- main.cpp `IsForeignKeyMatcherWellDefined`: a matcher is well defined when
none of its values is null. -/
def IsForeignKeyMatcherWellDefined (properties : MgMap) : Bool :=
  properties.all (fun kv => !isNullValue kv.2)

/-- Loop body of main.cpp `ConstructForeignKeyMatcher`: walk the paired
`child_columns`/`parent_columns` lists, mapping each pair to the entry
(parent column name, row value at the child column).  `none` models a CHECK
failure or an out-of-bounds vector access. -/
def ConstructForeignKeyMatcherGo (schema : SchemaInfo) (fk : ForeignKey)
    (row : Row) : List Nat → List Nat → Option MgMap
  | [], _ => some []
  | child_pos :: cs, parent_pos :: ps => do
    let parent_table ← schema.tables[fk.parent_table]?
    let value ← row[child_pos]?
    let key ← parent_table.columns[parent_pos]?
    let rest ← ConstructForeignKeyMatcherGo schema fk row cs ps
    return (key, value) :: rest
  | _ :: _, [] => none

/-- main.cpp `ConstructForeignKeyMatcher`: the map of properties of foreign
key columns used to match the corresponding row of the parent table. -/
def ConstructForeignKeyMatcher (schema : SchemaInfo) (fk : ForeignKey)
    (row : Row) : Option MgMap :=
  ConstructForeignKeyMatcherGo schema fk row fk.child_columns fk.parent_columns

/-- One step of the planner: the graph mutations it can emit.  For
relationship emission, `assert_one` records whether the caller CHECKs that
exactly one relationship was created. -/
inductive EmitOp where
  | createNode (labels : List String) (properties : MgMap)
  | createRelationships (label1 : String) (id1 : MgMap) (label2 : String)
      (id2 : MgMap) (edge_type : String) (properties : MgMap)
      (use_merge : Bool) (assert_one : Bool)
  | createLabelIndex (label : String)
  | createLabelPropertyIndex (label : String) (property : String)
  | dropLabelIndex (label : String)
  | dropLabelPropertyIndex (label : String) (property : String)
  | createExistenceConstraint (label : String) (property : String)
  | createUniqueConstraint (label : String) (properties : List String)

/-- Loop of the relationship-table edge pass building the edge property map:
for index i below the row width, keep (column name, value) iff i belongs to
neither foreign key's `child_columns` (utils::Contains). -/
def RelEdgePropertiesGo (cols : List String) (fk1c fk2c : List Nat) :
    Nat → Row → Option MgMap
  | _, [] => some []
  | i, value :: rest =>
    if !(fk1c.contains i) && !(fk2c.contains i) then do
      let key ← cols[i]?
      let tail ← RelEdgePropertiesGo cols fk1c fk2c (i + 1) rest
      return (key, value) :: tail
    else
      RelEdgePropertiesGo cols fk1c fk2c (i + 1) rest

/-- Edge properties of a relationship-table row (main.cpp, relationship
branch of the edge pass). -/
def RelEdgeProperties (table : Table) (row : Row) (fk1 fk2 : ForeignKey) :
    Option MgMap :=
  RelEdgePropertiesGo table.columns fk1.child_columns fk2.child_columns 0 row

/-- Row callback of the edge pass for a relationship table (main.cpp
`MigrateSqlDatabase`): build both endpoint matchers from the table's two
foreign keys; if both are well defined, emit exactly one CREATE relationship
whose result is CHECKed to be 1; otherwise skip the row. -/
def RelationshipRowOps (schema : SchemaInfo) (table : Table) (row : Row) :
    Option (List EmitOp) := do
  let fk_pos1 ← table.foreign_keys[0]?
  let fk_pos2 ← table.foreign_keys[1]?
  let foreign_key1 ← schema.foreign_keys[fk_pos1]?
  let foreign_key2 ← schema.foreign_keys[fk_pos2]?
  let id1 ← ConstructForeignKeyMatcher schema foreign_key1 row
  let id2 ← ConstructForeignKeyMatcher schema foreign_key2 row
  if IsForeignKeyMatcherWellDefined id1 && IsForeignKeyMatcherWellDefined id2 then do
    let parent1 ← schema.tables[foreign_key1.parent_table]?
    let parent2 ← schema.tables[foreign_key2.parent_table]?
    let properties ← RelEdgeProperties table row foreign_key1 foreign_key2
    return [EmitOp.createRelationships (GetTableName parent1) id1
      (GetTableName parent2) id2 (GetTableName table) properties false true]
  else
    return []

/-- Loop building the all-columns identity map (and the node property map):
for i below the row width, the entry (columns Lbracket i Rbracket, row
Lbracket i Rbracket). -/
def AllColumnsMapGo (cols : List String) : Nat → Row → Option MgMap
  | _, [] => some []
  | i, value :: rest => do
    let key ← cols[i]?
    let tail ← AllColumnsMapGo cols (i + 1) rest
    return (key, value) :: tail

/-- Loop over the primary-key positions building the entries
(column name at pos, row value at pos). -/
def PkId1Go (cols : List String) (row : Row) : List Nat → Option MgMap
  | [] => some []
  | pos :: rest => do
    let key ← cols[pos]?
    let value ← row[pos]?
    let tail ← PkId1Go cols row rest
    return (key, value) :: tail

/-- The identity matcher id1 of a node-table row (main.cpp, node branch of
the edge pass): the primary-key columns when the table has a primary key,
otherwise every column of the row. -/
def BuildNodeId1 (table : Table) (row : Row) : Option MgMap :=
  if !table.primary_key.isEmpty then
    PkId1Go table.columns row table.primary_key
  else
    AllColumnsMapGo table.columns 0 row

/-- Processing of one foreign key of a node-table row (main.cpp, node branch
of the edge pass).  The outer `Option` is a fatal abort; the inner `Option`
is `none` when the foreign key matcher is not well defined and the key is
skipped. -/
def NodeTableFkOp (schema : SchemaInfo) (table : Table) (row : Row)
    (label1 : String) (id1 : MgMap) (fk_pos : Nat) :
    Option (Option EmitOp) := do
  let foreign_key ← schema.foreign_keys[fk_pos]?
  let id2 ← ConstructForeignKeyMatcher schema foreign_key row
  if IsForeignKeyMatcherWellDefined id2 then do
    let parent ← schema.tables[foreign_key.parent_table]?
    let label2 := GetTableName parent
    let edge_type := label1 ++ ("_to_") ++ label2
    let use_merge := table.primary_key.isEmpty
    return some (EmitOp.createRelationships label1 id1 label2 id2 edge_type
      [] use_merge (!table.primary_key.isEmpty))
  else
    return none

/-- Row callback of the edge pass for a node table with foreign keys
(main.cpp `MigrateSqlDatabase`). -/
def NodeTableRowOps (schema : SchemaInfo) (table : Table) (row : Row) :
    Option (List EmitOp) := do
  let label1 := GetTableName table
  let id1 ← BuildNodeId1 table row
  let results ← table.foreign_keys.mapM (NodeTableFkOp schema table row label1 id1)
  return results.reduceOption

/-- Row callback of the node pass (main.cpp `MigrateSqlDatabase`): a node
labelled with the table name whose properties pair every column name with
the row value. -/
def NodeRowOp (table : Table) (row : Row) : Option EmitOp := do
  let properties ← AllColumnsMapGo table.columns 0 row
  return EmitOp.createNode [GetTableName table] properties

/-- Staging index created after a node table is drained: a label-property
index over the first primary key column when the table has a primary key,
otherwise a plain label index. -/
def StagingIndexOp (table : Table) : Option EmitOp :=
  if !table.primary_key.isEmpty then do
    let pk0 ← table.primary_key[0]?
    let column ← table.columns[pk0]?
    return EmitOp.createLabelPropertyIndex (GetTableName table) column
  else
    some (EmitOp.createLabelIndex (GetTableName table))

/-- The inverse of `StagingIndexOp`, run during cleanup. -/
def DropStagingIndexOp (table : Table) : Option EmitOp :=
  if !table.primary_key.isEmpty then do
    let pk0 ← table.primary_key[0]?
    let column ← table.columns[pk0]?
    return EmitOp.dropLabelPropertyIndex (GetTableName table) column
  else
    some (EmitOp.dropLabelIndex (GetTableName table))

/-- Sorted insertion into a duplicate-free sorted list: the behaviour of
inserting into a std::set of strings. -/
def stringSetInsert (x : String) : List String → List String
  | [] => [x]
  | y :: ys =>
    if x < y then x :: y :: ys
    else if x = y then y :: ys
    else y :: stringSetInsert x ys

/-- The contents of a std::set of strings populated from a list. -/
def stringSetOfList (l : List String) : List String :=
  l.foldl (fun acc x => stringSetInsert x acc) []

/-- main.cpp `MigrateSqlDatabase`: the full planner, as the sequence of graph
mutations it emits.  `read_table` stands for `source->ReadTable`, giving the
converted rows of a table in source order.  The passes are: node emission
with staging indexes, edge emission, staging-index cleanup, existence
constraints, unique constraints. -/
def MigrateSqlDatabase (schema : SchemaInfo) (read_table : Table → List Row) :
    Option (List EmitOp) := do
  let node_ops ← schema.tables.mapM (fun table =>
    if IsTableRelationship table then pure []
    else do
      let row_ops ← (read_table table).mapM (NodeRowOp table)
      let index_op ← StagingIndexOp table
      return row_ops ++ [index_op])
  let edge_ops ← schema.tables.mapM (fun table =>
    if table.foreign_keys.isEmpty then pure []
    else if IsTableRelationship table then do
      let per_row ← (read_table table).mapM (RelationshipRowOps schema table)
      return per_row.flatten
    else do
      let per_row ← (read_table table).mapM (NodeTableRowOps schema table)
      return per_row.flatten)
  let drop_ops ← schema.tables.mapM DropStagingIndexOp
  let existence_ops ← schema.existence_constraints.mapM (fun c => do
    let table ← schema.tables[c.1]?
    if IsTableRelationship table then return none
    else do
      let property ← table.columns[c.2]?
      return some (EmitOp.createExistenceConstraint (GetTableName table) property))
  let unique_ops ← schema.unique_constraints.mapM (fun c => do
    let table ← schema.tables[c.1]?
    if IsTableRelationship table then return none
    else do
      let properties ← c.2.mapM (fun pos => table.columns[pos]?)
      return some (EmitOp.createUniqueConstraint (GetTableName table)
        (stringSetOfList properties)))
  return node_ops.flatten ++ edge_ops.flatten ++ drop_ops
    ++ existence_ops.reduceOption ++ unique_ops.reduceOption

/-! Spec-side characterizations of the per-row edge data (section 4.F.4). -/

/-- Modelled from the spec: the edge properties of a relationship-table row
are the row columns that are not part of either foreign key's child-column
set. -/
def specNonFkProperties (table : Table) (row : Row) (fk1 fk2 : ForeignKey) :
    MgMap :=
  ((List.enumFrom 0 row).filter (fun iv =>
      !(fk1.child_columns.contains iv.1) && !(fk2.child_columns.contains iv.1))).map
    (fun iv => (table.columns.getD iv.1 (""), iv.2))

/-- Modelled from the spec: the identity matcher of a row of a table with a
primary key consists of the primary-key columns. -/
def specPkId1 (table : Table) (row : Row) : MgMap :=
  table.primary_key.map
    (fun pos => (table.columns.getD pos (""), row.getD pos MgValue.null))

/-- Modelled from the spec: the identity matcher of a row of a table without
a primary key consists of every column of the row. -/
def specAllColumnsId1 (table : Table) (row : Row) : MgMap :=
  (List.enumFrom 0 row).map (fun iv => (table.columns.getD iv.1 (""), iv.2))

theorem getElem?_some_getD {α : Type} {l : List α} {i : Nat} {x d : α}
    (h : l[i]? = some x) : l.getD i d = x := by
  rw [List.getD_eq_getElem?_getD, h]
  rfl

theorem relEdgePropertiesGo_eq (cols : List String) (f1 f2 : List Nat)
    (vs : Row) :
    ∀ (i : Nat) (m : MgMap),
      RelEdgePropertiesGo cols f1 f2 i vs = some m →
      m = ((List.enumFrom i vs).filter
            (fun iv => !(f1.contains iv.1) && !(f2.contains iv.1))).map
          (fun iv => (cols.getD iv.1 (""), iv.2)) := by
  induction vs with
  | nil =>
    intro i m h
    simp only [RelEdgePropertiesGo, Option.some.injEq] at h
    simp [← h]
  | cons v rest ih =>
    intro i m h
    by_cases hc : (!(f1.contains i) && !(f2.contains i)) = true
    · rw [RelEdgePropertiesGo, if_pos hc] at h
      cases hkey : cols[i]? with
      | none => rw [hkey] at h; simp at h
      | some key =>
        rw [hkey] at h
        cases htail : RelEdgePropertiesGo cols f1 f2 (i + 1) rest with
        | none => rw [htail] at h; simp at h
        | some tail =>
          rw [htail] at h
          simp at h
          subst h
          rw [List.enumFrom_cons]
          simp only [List.filter_cons, hc, if_true]
          simp [ih (i + 1) tail htail, hkey]
    · rw [RelEdgePropertiesGo, if_neg hc] at h
      rw [List.enumFrom_cons]
      simp only [List.filter_cons, hc, if_false, Bool.false_eq_true]
      exact ih (i + 1) m h

theorem allColumnsMapGo_eq (cols : List String) (vs : Row) :
    ∀ (i : Nat) (m : MgMap),
      AllColumnsMapGo cols i vs = some m →
      m = (List.enumFrom i vs).map (fun iv => (cols.getD iv.1 (""), iv.2)) := by
  induction vs with
  | nil =>
    intro i m h
    simp only [AllColumnsMapGo, Option.some.injEq] at h
    simp [← h]
  | cons v rest ih =>
    intro i m h
    rw [AllColumnsMapGo] at h
    cases hkey : cols[i]? with
    | none => rw [hkey] at h; simp at h
    | some key =>
      rw [hkey] at h
      cases htail : AllColumnsMapGo cols (i + 1) rest with
      | none => rw [htail] at h; simp at h
      | some tail =>
        rw [htail] at h
        simp at h
        subst h
        rw [List.enumFrom_cons]
        simp [ih (i + 1) tail htail, hkey]

theorem pkId1Go_eq (cols : List String) (row : Row) (pks : List Nat) :
    ∀ (m : MgMap),
      PkId1Go cols row pks = some m →
      m = pks.map (fun pos => (cols.getD pos (""), row.getD pos MgValue.null)) := by
  induction pks with
  | nil =>
    intro m h
    simp only [PkId1Go, Option.some.injEq] at h
    simp [← h]
  | cons pos rest ih =>
    intro m h
    rw [PkId1Go] at h
    cases hkey : cols[pos]? with
    | none => rw [hkey] at h; simp at h
    | some key =>
      rw [hkey] at h
      cases hvalue : row[pos]? with
      | none => rw [hvalue] at h; simp at h
      | some value =>
        rw [hvalue] at h
        cases htail : PkId1Go cols row rest with
        | none => rw [htail] at h; simp at h
        | some tail =>
          rw [htail] at h
          simp at h
          subst h
          simp [ih tail htail, hkey, hvalue]

theorem buildNodeId1_pk_eq (table : Table) (row : Row) (id1 : MgMap)
    (hpk : table.primary_key ≠ []) (h : BuildNodeId1 table row = some id1) :
    id1 = specPkId1 table row := by
  unfold BuildNodeId1 at h
  rw [if_pos (by simpa using hpk)] at h
  exact pkId1Go_eq table.columns row table.primary_key id1 h

theorem buildNodeId1_nopk_eq (table : Table) (row : Row) (id1 : MgMap)
    (hpk : table.primary_key = []) (h : BuildNodeId1 table row = some id1) :
    id1 = specAllColumnsId1 table row := by
  unfold BuildNodeId1 at h
  rw [if_neg (by simp [hpk])] at h
  exact allColumnsMapGo_eq table.columns row 0 id1 h

/-- C2: for a relationship table whose two endpoint matchers are well
defined on a row, exactly one edge is emitted: its edge type is the
canonical name of the table, its endpoint labels are the canonical names of
the parent tables of the two foreign keys, its properties are exactly the
row columns belonging to neither foreign key's child-column set, it is
emitted with use_merge = false, and the caller asserts that exactly one
relationship was created. -/
theorem relationship_row_emits_single_edge
    (schema : SchemaInfo) (table : Table) (row : Row)
    (fk_pos1 fk_pos2 : Nat) (fk1 fk2 : ForeignKey) (id1 id2 : MgMap)
    (parent1 parent2 : Table) (props : MgMap)
    (hrel : IsTableRelationship table = true)
    (hfks : table.foreign_keys = [fk_pos1, fk_pos2])
    (hfk1 : schema.foreign_keys[fk_pos1]? = some fk1)
    (hfk2 : schema.foreign_keys[fk_pos2]? = some fk2)
    (hid1 : ConstructForeignKeyMatcher schema fk1 row = some id1)
    (hid2 : ConstructForeignKeyMatcher schema fk2 row = some id2)
    (hw1 : IsForeignKeyMatcherWellDefined id1 = true)
    (hw2 : IsForeignKeyMatcherWellDefined id2 = true)
    (hp1 : schema.tables[fk1.parent_table]? = some parent1)
    (hp2 : schema.tables[fk2.parent_table]? = some parent2)
    (hprops : RelEdgeProperties table row fk1 fk2 = some props) :
    RelationshipRowOps schema table row =
      some [EmitOp.createRelationships (GetTableName parent1) id1
        (GetTableName parent2) id2 (GetTableName table) props false true]
    ∧ props = specNonFkProperties table row fk1 fk2 := by
  constructor
  · simp [RelationshipRowOps, hfks, hfk1, hfk2, hid1, hid2, hw1, hw2,
      hp1, hp2, hprops]
  · unfold RelEdgeProperties at hprops
    exact relEdgePropertiesGo_eq table.columns fk1.child_columns
      fk2.child_columns row 0 props hprops

/-! Concrete scenario S1 of the spec: actors, movies and the join table
movie_roles. -/

def actorsTable : Table :=
  Table.mk ("public") ("actors") [("actor_id"), ("name")] [0] [] true

def moviesTable : Table :=
  Table.mk ("public") ("movies") [("movie_id"), ("title")] [0] [] true

def movieRolesTable : Table :=
  Table.mk ("public") ("movie_roles")
    [("actor_id"), ("movie_id"), ("characters")] [] [0, 1] false

def rolesActorFk : ForeignKey := ForeignKey.mk 2 0 [0] [0]

def rolesMovieFk : ForeignKey := ForeignKey.mk 2 1 [1] [0]

def s1Schema : SchemaInfo :=
  SchemaInfo.mk [actorsTable, moviesTable, movieRolesTable]
    [rolesActorFk, rolesMovieFk] [] []

def s1Row : Row := [MgValue.str ("a1"), MgValue.str ("m1"), MgValue.str ("Bruce")]

/-- Witness for C2 at scenario S1: the single movie_roles row produces one
actors-to-movies edge typed movie_roles carrying only the characters
column. -/
theorem relationship_row_emits_single_edge_witness :
    RelationshipRowOps s1Schema movieRolesTable s1Row =
      some [EmitOp.createRelationships (GetTableName actorsTable)
        [(("actor_id"), MgValue.str ("a1"))] (GetTableName moviesTable)
        [(("movie_id"), MgValue.str ("m1"))] (GetTableName movieRolesTable)
        [(("characters"), MgValue.str ("Bruce"))] false true]
    ∧ [(("characters"), MgValue.str ("Bruce"))]
        = specNonFkProperties movieRolesTable s1Row rolesActorFk rolesMovieFk :=
  relationship_row_emits_single_edge s1Schema movieRolesTable s1Row 0 1
    rolesActorFk rolesMovieFk
    [(("actor_id"), MgValue.str ("a1"))] [(("movie_id"), MgValue.str ("m1"))]
    actorsTable moviesTable [(("characters"), MgValue.str ("Bruce"))]
    rfl rfl rfl rfl rfl rfl rfl rfl rfl rfl rfl

/-- C3: in the edge pass over a node table, each well-defined foreign key of
a row yields exactly one edge; the row's own identity matcher id1 consists
of the primary-key columns when the table has a primary key and of every
column of the row otherwise; with a primary key the edge uses CREATE
(use_merge = false) and the result count is asserted to be 1; without a
primary key it uses MERGE and no uniqueness assertion is made. -/
theorem node_table_fk_emits_edge
    (schema : SchemaInfo) (table : Table) (row : Row) (id1 : MgMap)
    (fk_pos : Nat) (fk : ForeignKey) (id2 : MgMap) (parent : Table)
    (hid1 : BuildNodeId1 table row = some id1)
    (hfk : schema.foreign_keys[fk_pos]? = some fk)
    (hid2 : ConstructForeignKeyMatcher schema fk row = some id2)
    (hw : IsForeignKeyMatcherWellDefined id2 = true)
    (hp : schema.tables[fk.parent_table]? = some parent) :
    NodeTableFkOp schema table row (GetTableName table) id1 fk_pos =
      some (some (EmitOp.createRelationships (GetTableName table) id1
        (GetTableName parent) id2
        (GetTableName table ++ ("_to_") ++ GetTableName parent) []
        table.primary_key.isEmpty (!table.primary_key.isEmpty)))
    ∧ (table.primary_key ≠ [] → id1 = specPkId1 table row)
    ∧ (table.primary_key = [] → id1 = specAllColumnsId1 table row) := by
  refine ⟨?_, ?_, ?_⟩
  · simp [NodeTableFkOp, hfk, hid2, hw, hp]
  · intro hpk
    exact buildNodeId1_pk_eq table row id1 hpk hid1
  · intro hpk
    exact buildNodeId1_nopk_eq table row id1 hpk hid1

/-! Concrete scenario S2 of the spec: tvseries and tvepisodes, connected by
one foreign key, and a no-primary-key variant visits referencing persons. -/

def tvseriesTable : Table :=
  Table.mk ("public") ("tvseries") [("series_id")] [0] [] true

def tvepisodesTable : Table :=
  Table.mk ("public") ("tvepisodes")
    [("episode_id"), ("series_id"), ("title")] [0] [0] false

def episodesSeriesFk : ForeignKey := ForeignKey.mk 1 0 [1] [0]

def s2Schema : SchemaInfo :=
  SchemaInfo.mk [tvseriesTable, tvepisodesTable] [episodesSeriesFk] [] []

def s2Row : Row := [MgValue.integer 1, MgValue.integer 7, MgValue.str ("Pilot")]

def personsTable : Table :=
  Table.mk ("public") ("persons") [("person_id")] [0] [] true

def visitsTable : Table :=
  Table.mk ("public") ("visits") [("person_id"), ("place")] [] [0] false

def visitsPersonFk : ForeignKey := ForeignKey.mk 1 0 [0] [0]

def s5Schema : SchemaInfo :=
  SchemaInfo.mk [personsTable, visitsTable] [visitsPersonFk] [] []

def s5Row : Row := [MgValue.integer 5, MgValue.str ("park")]

/-- Witness for C3 at scenarios S2 and S5: with a primary key the episode
row emits one CREATE edge asserted to create exactly one relationship and
id1 is the primary-key matcher; without a primary key the visits row emits
one MERGE edge with no assertion and id1 holds every column. -/
theorem node_table_fk_emits_edge_witness :
    (NodeTableFkOp s2Schema tvepisodesTable s2Row
        (GetTableName tvepisodesTable) [(("episode_id"), MgValue.integer 1)] 0 =
      some (some (EmitOp.createRelationships (GetTableName tvepisodesTable)
        [(("episode_id"), MgValue.integer 1)] (GetTableName tvseriesTable)
        [(("series_id"), MgValue.integer 7)]
        (GetTableName tvepisodesTable ++ ("_to_") ++ GetTableName tvseriesTable)
        [] tvepisodesTable.primary_key.isEmpty
        (!tvepisodesTable.primary_key.isEmpty)))
      ∧ (tvepisodesTable.primary_key ≠ [] →
          [(("episode_id"), MgValue.integer 1)] = specPkId1 tvepisodesTable s2Row)
      ∧ (tvepisodesTable.primary_key = [] →
          [(("episode_id"), MgValue.integer 1)]
            = specAllColumnsId1 tvepisodesTable s2Row))
    ∧ (NodeTableFkOp s5Schema visitsTable s5Row (GetTableName visitsTable)
        [(("person_id"), MgValue.integer 5), (("place"), MgValue.str ("park"))] 0 =
      some (some (EmitOp.createRelationships (GetTableName visitsTable)
        [(("person_id"), MgValue.integer 5), (("place"), MgValue.str ("park"))]
        (GetTableName personsTable) [(("person_id"), MgValue.integer 5)]
        (GetTableName visitsTable ++ ("_to_") ++ GetTableName personsTable)
        [] visitsTable.primary_key.isEmpty (!visitsTable.primary_key.isEmpty)))
      ∧ (visitsTable.primary_key ≠ [] →
          [(("person_id"), MgValue.integer 5), (("place"), MgValue.str ("park"))]
            = specPkId1 visitsTable s5Row)
      ∧ (visitsTable.primary_key = [] →
          [(("person_id"), MgValue.integer 5), (("place"), MgValue.str ("park"))]
            = specAllColumnsId1 visitsTable s5Row)) :=
  And.intro
    (node_table_fk_emits_edge s2Schema tvepisodesTable s2Row
      [(("episode_id"), MgValue.integer 1)] 0 episodesSeriesFk
      [(("series_id"), MgValue.integer 7)] tvseriesTable
      rfl rfl rfl rfl rfl)
    (node_table_fk_emits_edge s5Schema visitsTable s5Row
      [(("person_id"), MgValue.integer 5), (("place"), MgValue.str ("park"))] 0
      visitsPersonFk [(("person_id"), MgValue.integer 5)] personsTable
      rfl rfl rfl rfl rfl)

theorem isNullValue_iff (v : MgValue) : isNullValue v = true ↔ v = MgValue.null := by
  cases v <;> simp [isNullValue]

/-- C4: a row of the edge pass whose endpoint matcher contains a null value
is skipped without error — a relationship table emits nothing for the row,
a node table emits nothing for that foreign key — and a matcher is not well
defined exactly when it contains a null value.  The `some` results witness
that the skip is a normal outcome of the migration, not an abort. -/
theorem null_fk_matcher_skips_row :
    (∀ (schema : SchemaInfo) (table : Table) (row : Row)
        (fk_pos1 fk_pos2 : Nat) (fk1 fk2 : ForeignKey) (id1 id2 : MgMap),
      table.foreign_keys = [fk_pos1, fk_pos2] →
      schema.foreign_keys[fk_pos1]? = some fk1 →
      schema.foreign_keys[fk_pos2]? = some fk2 →
      ConstructForeignKeyMatcher schema fk1 row = some id1 →
      ConstructForeignKeyMatcher schema fk2 row = some id2 →
      (IsForeignKeyMatcherWellDefined id1 = false
        ∨ IsForeignKeyMatcherWellDefined id2 = false) →
      RelationshipRowOps schema table row = some [])
    ∧ (∀ (schema : SchemaInfo) (table : Table) (row : Row)
        (label1 : String) (id1 : MgMap) (fk_pos : Nat) (fk : ForeignKey)
        (id2 : MgMap),
      schema.foreign_keys[fk_pos]? = some fk →
      ConstructForeignKeyMatcher schema fk row = some id2 →
      IsForeignKeyMatcherWellDefined id2 = false →
      NodeTableFkOp schema table row label1 id1 fk_pos = some none)
    ∧ (∀ properties : MgMap,
      IsForeignKeyMatcherWellDefined properties = false
        ↔ ∃ kv ∈ properties, kv.2 = MgValue.null) := by
  refine ⟨?_, ?_, ?_⟩
  · intro schema table row fk_pos1 fk_pos2 fk1 fk2 id1 id2
      hfks hfk1 hfk2 hid1 hid2 hw
    simp [RelationshipRowOps, hfks, hfk1, hfk2, hid1, hid2]
    intro h1 h2
    cases hw with
    | inl h => simp [h] at h1
    | inr h => simp [h] at h2
  · intro schema table row label1 id1 fk_pos fk id2 hfk hid2 hw
    simp [NodeTableFkOp, hfk, hid2, hw]
  · intro properties
    simp [IsForeignKeyMatcherWellDefined, List.all_eq_false, isNullValue_iff]

/-- Witness for C4: a movie_roles row with a null actor_id produces no edge
but succeeds, a visits row with a null person_id skips its foreign key but
succeeds, and the matcher with the null entry is indeed not well defined. -/
theorem null_fk_matcher_skips_row_witness :
    RelationshipRowOps s1Schema movieRolesTable
        [MgValue.null, MgValue.str ("m1"), MgValue.str ("x")] = some []
    ∧ NodeTableFkOp s5Schema visitsTable [MgValue.null, MgValue.str ("park")]
        (GetTableName visitsTable)
        [(("person_id"), MgValue.null), (("place"), MgValue.str ("park"))] 0
        = some none
    ∧ (IsForeignKeyMatcherWellDefined [(("actor_id"), MgValue.null)] = false
        ↔ ∃ kv ∈ [(("actor_id"), MgValue.null)], kv.2 = MgValue.null) :=
  And.intro
    (null_fk_matcher_skips_row.1 s1Schema movieRolesTable
      [MgValue.null, MgValue.str ("m1"), MgValue.str ("x")] 0 1
      rolesActorFk rolesMovieFk [(("actor_id"), MgValue.null)]
      [(("movie_id"), MgValue.str ("m1"))] rfl rfl rfl rfl rfl (Or.inl rfl))
    (And.intro
      (null_fk_matcher_skips_row.2.1 s5Schema visitsTable
        [MgValue.null, MgValue.str ("park")] (GetTableName visitsTable)
        [(("person_id"), MgValue.null), (("place"), MgValue.str ("park"))] 0
        visitsPersonFk [(("person_id"), MgValue.null)] rfl rfl rfl)
      (null_fk_matcher_skips_row.2.2 [(("actor_id"), MgValue.null)]))

/-! Unique-constraint grouping of the schema reflectors.  A result row of
the metadata query, after name resolution through GetTableIndex and
GetColumnIndex, carries the constraint name, the owning table index and one
column index. -/

structure UCRow where
  constraint_name : String
  table : Nat
  column : Nat
deriving DecidableEq

/-- Boundary test of source/mysql.cpp `ListAllUniqueConstraints`:
`prev_constraint_name != constraint_name || (prev_table && prev_table !=
table)` (comparing a disengaged std::optional with a value is guarded by
the engagement test). -/
def mysqlBoundary (prev_name : String) (prev_table : Option Nat)
    (r : UCRow) : Bool :=
  prev_name != r.constraint_name
    || (match prev_table with
        | some t => t != r.table
        | none => false)

/-- Loop of source/mysql.cpp `ListAllUniqueConstraints`: rows are grouped by
constraint name AND owning table; the current group is flushed at each
boundary and once at the end if non-empty. -/
def MysqlUniqueConstraintsGo :
    List UCRow → Nat × List Nat → String → Option Nat → List (Nat × List Nat)
  | [], current, _, _ => if current.2.isEmpty then [] else [current]
  | r :: rs, current, prev_name, prev_table =>
    if mysqlBoundary prev_name prev_table r then
      if current.2.isEmpty then
        MysqlUniqueConstraintsGo rs (r.table, [r.column]) r.constraint_name
          (some r.table)
      else
        current :: MysqlUniqueConstraintsGo rs (r.table, [r.column])
          r.constraint_name (some r.table)
    else
      MysqlUniqueConstraintsGo rs (current.1, current.2 ++ [r.column])
        r.constraint_name (some r.table)

/-- source/mysql.cpp `ListAllUniqueConstraints`, starting from the default
state (current constraint (0, []), empty previous name, no previous
table). -/
def ListAllUniqueConstraintsMysql (rows : List UCRow) : List (Nat × List Nat) :=
  MysqlUniqueConstraintsGo rows (0, []) ("") none

/-- Loop of source/postgresql.cpp `ListAllUniqueConstraints`: identical
except that the boundary condition compares the constraint name only
(`prev_constraint_name != constraint_name`). -/
def PgUniqueConstraintsGo :
    List UCRow → Nat × List Nat → String → List (Nat × List Nat)
  | [], current, _ => if current.2.isEmpty then [] else [current]
  | r :: rs, current, prev_name =>
    if prev_name ≠ r.constraint_name then
      if current.2.isEmpty then
        PgUniqueConstraintsGo rs (r.table, [r.column]) r.constraint_name
      else
        current :: PgUniqueConstraintsGo rs (r.table, [r.column])
          r.constraint_name
    else
      PgUniqueConstraintsGo rs (current.1, current.2 ++ [r.column])
        r.constraint_name

/-- source/postgresql.cpp `ListAllUniqueConstraints`. -/
def ListAllUniqueConstraintsPg (rows : List UCRow) : List (Nat × List Nat) :=
  PgUniqueConstraintsGo rows (0, []) ("")

/-- Modelled from the spec (section 4.C.6): group maximal contiguous runs of
rows sharing (constraint_name, table); each run yields one unique
constraint on that run's table. -/
def SpecGroupUniqueConstraintsGo (name : String) (tbl : Nat) (acc : List Nat) :
    List UCRow → List (Nat × List Nat)
  | [] => [(tbl, acc)]
  | r :: rs =>
    if r.constraint_name = name ∧ r.table = tbl then
      SpecGroupUniqueConstraintsGo name tbl (acc ++ [r.column]) rs
    else
      (tbl, acc) :: SpecGroupUniqueConstraintsGo r.constraint_name r.table
        [r.column] rs

/-- Modelled from the spec (section 4.C.6): unique constraints assembled by
grouping rows by (constraint_name, table). -/
def SpecGroupUniqueConstraints : List UCRow → List (Nat × List Nat)
  | [] => []
  | r :: rs => SpecGroupUniqueConstraintsGo r.constraint_name r.table [r.column] rs

theorem mysqlUniqueConstraintsGo_eq_spec (rows : List UCRow) :
    ∀ (tbl : Nat) (acc : List Nat) (name : String),
      acc ≠ [] →
      MysqlUniqueConstraintsGo rows (tbl, acc) name (some tbl) =
        SpecGroupUniqueConstraintsGo name tbl acc rows := by
  induction rows with
  | nil =>
    intro tbl acc name hacc
    simp [MysqlUniqueConstraintsGo, SpecGroupUniqueConstraintsGo, hacc]
  | cons r rs ih =>
    intro tbl acc name hacc
    by_cases hsame : r.constraint_name = name ∧ r.table = tbl
    · have hb : mysqlBoundary name (some tbl) r = false := by
        simp [mysqlBoundary, hsame.1, hsame.2]
      rw [MysqlUniqueConstraintsGo, SpecGroupUniqueConstraintsGo, if_pos hsame]
      simp only [hb, Bool.false_eq_true, if_false]
      have e1 : r.constraint_name = name := hsame.1
      have e2 : r.table = tbl := hsame.2
      rw [e1, e2]
      exact ih tbl (acc ++ [r.column]) name (by simp)
    · have hb : mysqlBoundary name (some tbl) r = true := by
        have hd : ¬name = r.constraint_name ∨ ¬tbl = r.table := by
          rcases not_and_or.mp hsame with h | h
          · exact Or.inl (fun e => h e.symm)
          · exact Or.inr (fun e => h e.symm)
        simpa [mysqlBoundary, bne_iff_ne] using hd
      rw [MysqlUniqueConstraintsGo, SpecGroupUniqueConstraintsGo, if_neg hsame]
      simp only [hb, if_true]
      rw [if_neg (by simpa using hacc)]
      exact congrArg _ (ih r.table [r.column] r.constraint_name (by simp))

/-- C8 counterexample: the PostgreSQL reflector groups by constraint name
alone, so two single-column PRIMARY KEY constraints that share the name
"PRIMARY" but live on different tables (table 0 and table 1) are merged
into one constraint on table 0, while grouping by (name, table) keeps them
apart. -/
theorem pg_unique_constraints_merge_across_tables :
    ListAllUniqueConstraintsPg
        [UCRow.mk ("PRIMARY") 0 0, UCRow.mk ("PRIMARY") 1 0]
      = [(0, [0, 0])]
    ∧ SpecGroupUniqueConstraints
        [UCRow.mk ("PRIMARY") 0 0, UCRow.mk ("PRIMARY") 1 0]
      = [(0, [0]), (1, [0])]
    ∧ ListAllUniqueConstraintsPg
        [UCRow.mk ("PRIMARY") 0 0, UCRow.mk ("PRIMARY") 1 0]
      ≠ SpecGroupUniqueConstraints
        [UCRow.mk ("PRIMARY") 0 0, UCRow.mk ("PRIMARY") 1 0] := by
  refine ⟨by decide, by decide, by decide⟩

/-- C8 amended: the MySQL reflector's grouping key includes the owning
table: whenever no reflected constraint is named by the empty string, its
assembled unique constraints are exactly the contiguous groups of rows by
(constraint_name, table), so constraints sharing a name across different
tables (such as MySQL's PRIMARY) are never merged.  The PostgreSQL
reflector groups by constraint name alone (see the counterexample). -/
theorem mysql_unique_constraints_group_by_name_and_table (rows : List UCRow)
    (hname : ∀ r ∈ rows, r.constraint_name ≠ ("")) :
    ListAllUniqueConstraintsMysql rows = SpecGroupUniqueConstraints rows := by
  cases rows with
  | nil => rfl
  | cons r rs =>
    have hr : r.constraint_name ≠ ("") := hname r (List.mem_cons_self r rs)
    have hb : mysqlBoundary ("") none r = true := by
      simp [mysqlBoundary, bne_iff_ne]
      exact fun e => hr (Eq.symm e)
    rw [ListAllUniqueConstraintsMysql, MysqlUniqueConstraintsGo]
    simp only [hb, if_true]
    rw [if_pos (by simp)]
    exact mysqlUniqueConstraintsGo_eq_spec rs r.table [r.column]
      r.constraint_name (by simp)

/-- Witness for the amended C8, at the rows of a MySQL-style reflection:
both tables use the constraint name PRIMARY, and grouping keeps one
constraint per table. -/
theorem mysql_unique_constraints_group_witness :
    ListAllUniqueConstraintsMysql
        [UCRow.mk ("PRIMARY") 0 0, UCRow.mk ("PRIMARY") 1 0,
         UCRow.mk ("uq_title") 1 1]
      = SpecGroupUniqueConstraints
        [UCRow.mk ("PRIMARY") 0 0, UCRow.mk ("PRIMARY") 1 0,
         UCRow.mk ("uq_title") 1 1] :=
  mysql_unique_constraints_group_by_name_and_table
    [UCRow.mk ("PRIMARY") 0 0, UCRow.mk ("PRIMARY") 1 0,
     UCRow.mk ("uq_title") 1 1] (by decide)

/-! The graph-emission layer (memgraph_destination.cpp). -/

/-- Character loop of memgraph_destination.cpp `EscapeName`: every backtick
is emitted twice, every other character once. -/
def EscapeChars : List Char → List Char
  | [] => []
  | c :: rest =>
    if c = '\x60' then '\x60' :: '\x60' :: EscapeChars rest
    else c :: EscapeChars rest

/-- memgraph_destination.cpp `EscapeName`: wrap the escaped characters in
backticks. -/
def EscapeName (src : String) : String :=
  String.mk ('\x60' :: (EscapeChars src.data ++ ['\x60']))

/-- Modelled from the spec (section 4.E): identifiers are backtick-escaped
with embedded backticks doubled. -/
def specBacktickEscape (s : String) : String :=
  String.mk ('\x60' ::
    (s.data.flatMap (fun c => if c = '\x60' then [c, c] else [c]) ++ ['\x60']))

/-- memgraph_destination.cpp `ParamsBuilder`: a counter and the parameters
assigned so far.  `params` lists the key-value associations in creation
order (the C++ std::map holds the same associations keyed by name). -/
structure ParamsBuilder where
  counter : Nat
  params : List (String × MgValue)

/-- `ParamsBuilder::Create`: assign the next parameter name to `value` and
return the dollar-prefixed name. -/
def ParamsBuilder.create (pb : ParamsBuilder) (value : MgValue) :
    String × ParamsBuilder :=
  let key := ("param") ++ toString pb.counter
  (("$") ++ key, ParamsBuilder.mk (pb.counter + 1) (pb.params ++ [(key, value)]))

/-- One step of `WriteProperties`: stream one key-value entry as
escaped-key: $param. -/
def wpStep (acc : List String × ParamsBuilder) (kv : String × MgValue) :
    List String × ParamsBuilder :=
  let r := acc.2.create kv.2
  (acc.1 ++ [EscapeName kv.1 ++ (": ") ++ r.1], r.2)

/-- memgraph_destination.cpp `WriteProperties`: the property map rendered as
a brace-enclosed comma-separated list of escaped-key: $param entries. -/
def WritePropertiesStr (pb : ParamsBuilder) (properties : MgMap) :
    String × ParamsBuilder :=
  let r := properties.foldl wpStep ([], pb)
  (("\x7b") ++ String.intercalate (", ") r.1 ++ ("\x7d"), r.2)

/-- One step of `WriteIdMatcher`: stream one equality predicate
node.escaped-key = $param. -/
def idStep (node : String) (acc : List String × ParamsBuilder)
    (kv : String × MgValue) : List String × ParamsBuilder :=
  let r := acc.2.create kv.2
  (acc.1 ++ [node ++ (".") ++ EscapeName kv.1 ++ (" = ") ++ r.1], r.2)

/-- memgraph_destination.cpp `WriteIdMatcher`: the id property entries
joined with AND, in map order. -/
def WriteIdMatcherStr (pb : ParamsBuilder) (node : String)
    (id_properties : MgMap) : String × ParamsBuilder :=
  let r := id_properties.foldl (idStep node) ([], pb)
  (String.intercalate (" AND ") r.1, r.2)

/-- memgraph_destination.cpp `CreateNode`: the parameterized statement and
its parameters (in creation order). -/
def CreateNodeStmt (labels : List String) (properties : MgMap) :
    String × List (String × MgValue) :=
  let pb0 := ParamsBuilder.mk 0 []
  let head := labels.foldl
    (fun acc label => acc ++ (":") ++ EscapeName label) ("CREATE (u")
  let r := WritePropertiesStr pb0 properties
  (head ++ (" ") ++ r.1 ++ (");"), r.2.params)

/-- memgraph_destination.cpp `CreateRelationships`: the parameterized
statement and its parameters (in creation order). -/
def CreateRelationshipsStmt (label1 : String) (id1 : MgMap) (label2 : String)
    (id2 : MgMap) (edge_type : String) (properties : MgMap)
    (use_merge : Bool) : String × List (String × MgValue) :=
  let pb0 := ParamsBuilder.mk 0 []
  let head := ("MATCH (u:") ++ EscapeName label1 ++ ("), (v:")
    ++ EscapeName label2 ++ (") WHERE ")
  let r1 := WriteIdMatcherStr pb0 ("u") id1
  let r2 := WriteIdMatcherStr r1.2 ("v") id2
  let mid := head ++ r1.1 ++ (" AND ") ++ r2.1
    ++ (if use_merge then (" MERGE ") else (" CREATE "))
    ++ ("(u)-[:") ++ EscapeName edge_type
  let r3 :=
    if properties.isEmpty then (mid, r2.2)
    else
      let rp := WritePropertiesStr r2.2 properties
      (mid ++ (" ") ++ rp.1, rp.2)
  (r3.1 ++ ("]->(v) RETURN COUNT(u);"), r3.2.params)

def CreateLabelIndexStmt (label : String) : String :=
  ("CREATE INDEX ON :") ++ EscapeName label ++ (";")

def CreateLabelPropertyIndexStmt (label property : String) : String :=
  ("CREATE INDEX ON :") ++ EscapeName label ++ ("(")
    ++ EscapeName property ++ (");")

def CreateExistenceConstraintStmt (label property : String) : String :=
  ("CREATE CONSTRAINT ON (u:") ++ EscapeName label
    ++ (") ASSERT EXISTS (u.") ++ EscapeName property ++ (");")

def CreateUniqueConstraintStmt (label : String) (properties : List String) :
    String :=
  ("CREATE CONSTRAINT ON (u:") ++ EscapeName label ++ (") ASSERT ")
    ++ String.intercalate (", ") (properties.map (fun p => ("u.") ++ EscapeName p))
    ++ (" IS UNIQUE;")

def DropLabelIndexStmt (label : String) : String :=
  ("DROP INDEX ON :") ++ EscapeName label ++ (";")

def DropLabelPropertyIndexStmt (label property : String) : String :=
  ("DROP INDEX ON :") ++ EscapeName label ++ ("(")
    ++ EscapeName property ++ (");")

def RemoveLabelFromNodesQuery (label : String) : String :=
  ("MATCH (u) REMOVE u:") ++ EscapeName label ++ (";")

def RemovePropertyFromNodesQuery (property : String) : String :=
  ("MATCH (u) REMOVE u.") ++ EscapeName property ++ (";")

/-- One interaction with the destination client: executing a statement or
pulling one result (`FetchOne`). -/
inductive ClientCall where
  | exec (statement : String)
  | fetchOne
deriving DecidableEq

/-- `CreateNode`: execute, then expect the finished marker. -/
def CreateNodeCalls (labels : List String) (properties : MgMap) :
    List ClientCall :=
  [ClientCall.exec (CreateNodeStmt labels properties).1, ClientCall.fetchOne]

/-- `CreateRelationships`: execute, fetch the single count row, then expect
the finished marker. -/
def CreateRelationshipsCalls (label1 : String) (id1 : MgMap) (label2 : String)
    (id2 : MgMap) (edge_type : String) (properties : MgMap)
    (use_merge : Bool) : List ClientCall :=
  [ClientCall.exec
      (CreateRelationshipsStmt label1 id1 label2 id2 edge_type properties
        use_merge).1,
   ClientCall.fetchOne, ClientCall.fetchOne]

def CreateLabelIndexCalls (label : String) : List ClientCall :=
  [ClientCall.exec (CreateLabelIndexStmt label), ClientCall.fetchOne]

def CreateLabelPropertyIndexCalls (label property : String) : List ClientCall :=
  [ClientCall.exec (CreateLabelPropertyIndexStmt label property),
   ClientCall.fetchOne]

def CreateExistenceConstraintCalls (label property : String) : List ClientCall :=
  [ClientCall.exec (CreateExistenceConstraintStmt label property),
   ClientCall.fetchOne]

def CreateUniqueConstraintCalls (label : String) (properties : List String) :
    List ClientCall :=
  [ClientCall.exec (CreateUniqueConstraintStmt label properties),
   ClientCall.fetchOne]

def DropLabelIndexCalls (label : String) : List ClientCall :=
  [ClientCall.exec (DropLabelIndexStmt label), ClientCall.fetchOne]

def DropLabelPropertyIndexCalls (label property : String) : List ClientCall :=
  [ClientCall.exec (DropLabelPropertyIndexStmt label property),
   ClientCall.fetchOne]

/-- `RemoveLabelFromNodes` (memgraph_destination.cpp lines 207-213): the
code calls `Execute` with the REMOVE statement and then calls `Execute`
again with the same statement (expecting it to fail), instead of calling
`FetchOne` to drain the result stream. -/
def RemoveLabelFromNodesCalls (label : String) : List ClientCall :=
  [ClientCall.exec (RemoveLabelFromNodesQuery label),
   ClientCall.exec (RemoveLabelFromNodesQuery label)]

/-- `RemovePropertyFromNodes` (memgraph_destination.cpp lines 215-221):
same double-Execute shape as `RemoveLabelFromNodes`. -/
def RemovePropertyFromNodesCalls (property : String) : List ClientCall :=
  [ClientCall.exec (RemovePropertyFromNodesQuery property),
   ClientCall.exec (RemovePropertyFromNodesQuery property)]

/-- Cleanup tail of main.cpp `MigrateMemgraphDatabase` (lines 116-121):
drop the staging index on the internal label and property, then remove the
internal label from all nodes, then remove the internal property. -/
def MigrateMemgraphCleanupCalls : List ClientCall :=
  DropLabelPropertyIndexCalls ("__mg_vertex__") ("__mg_id__")
    ++ RemoveLabelFromNodesCalls ("__mg_vertex__")
    ++ RemovePropertyFromNodesCalls ("__mg_id__")

/-- C5: the cleanup of a graph-to-graph migration first drops the staging
index on __mg_vertex__(__mg_id__) and then issues the label and property
removals in order — but the two REMOVE statements are each executed twice
and never drained with FetchOne, so their result streams are not consumed
before the next statement. -/
theorem cleanup_remove_statements_not_drained :
    MigrateMemgraphCleanupCalls =
      [ClientCall.exec ("DROP INDEX ON :`__mg_vertex__`(`__mg_id__`);"),
       ClientCall.fetchOne,
       ClientCall.exec ("MATCH (u) REMOVE u:`__mg_vertex__`;"),
       ClientCall.exec ("MATCH (u) REMOVE u:`__mg_vertex__`;"),
       ClientCall.exec ("MATCH (u) REMOVE u.`__mg_id__`;"),
       ClientCall.exec ("MATCH (u) REMOVE u.`__mg_id__`;")]
    ∧ ClientCall.fetchOne ∉ RemoveLabelFromNodesCalls ("__mg_vertex__")
    ∧ ClientCall.fetchOne ∉ RemovePropertyFromNodesCalls ("__mg_id__") := by
  refine ⟨by decide, by decide, by decide⟩

/-- C6: every emission primitive except the two removal sweeps follows the
execute-then-drain protocol — one FetchOne checking the finished marker for
the zero-row statements, a count row plus the finished marker for
create_relationship — while remove_label_from_nodes and
remove_property_from_nodes perform no FetchOne at all: they re-issue
Execute with the same statement instead. -/
theorem remove_primitives_never_fetch_finished_marker :
    (CreateNodeCalls [("L")] []).count ClientCall.fetchOne = 1
    ∧ (CreateRelationshipsCalls ("A") [] ("B") [] ("t") [] false).count
        ClientCall.fetchOne = 2
    ∧ (CreateLabelIndexCalls ("L")).count ClientCall.fetchOne = 1
    ∧ (CreateLabelPropertyIndexCalls ("L") ("p")).count ClientCall.fetchOne = 1
    ∧ (CreateExistenceConstraintCalls ("L") ("p")).count ClientCall.fetchOne = 1
    ∧ (CreateUniqueConstraintCalls ("L") [("p")]).count ClientCall.fetchOne = 1
    ∧ (DropLabelIndexCalls ("L")).count ClientCall.fetchOne = 1
    ∧ (DropLabelPropertyIndexCalls ("L") ("p")).count ClientCall.fetchOne = 1
    ∧ (RemoveLabelFromNodesCalls ("L")).count ClientCall.fetchOne = 0
    ∧ (RemovePropertyFromNodesCalls ("p")).count ClientCall.fetchOne = 0
    ∧ RemoveLabelFromNodesCalls ("L") =
        [ClientCall.exec (RemoveLabelFromNodesQuery ("L")),
         ClientCall.exec (RemoveLabelFromNodesQuery ("L"))] := by
  refine ⟨by decide, by decide, by decide, by decide, by decide, by decide,
    by decide, by decide, by decide, by decide, by decide⟩

theorem escapeChars_eq_flatMap (l : List Char) :
    EscapeChars l = l.flatMap (fun c => if c = '\x60' then [c, c] else [c]) := by
  induction l with
  | nil => rfl
  | cons c rest ih =>
    by_cases hc : c = '\x60'
    · rw [EscapeChars, if_pos hc, List.flatMap_cons, if_pos hc, ih, hc]
      rfl
    · rw [EscapeChars, if_neg hc, List.flatMap_cons, if_neg hc, ih]
      rfl

/-- The name of the i-th created parameter of one statement. -/
def paramEntry (iv : Nat × (String × MgValue)) : String × MgValue :=
  (("param") ++ toString iv.1, iv.2.2)

theorem foldl_wpStep_params (properties : MgMap) :
    ∀ (segs : List String) (pb : ParamsBuilder),
      (properties.foldl wpStep (segs, pb)).2 =
        ParamsBuilder.mk (pb.counter + properties.length)
          (pb.params ++ (List.enumFrom pb.counter properties).map paramEntry) := by
  induction properties with
  | nil =>
    intro segs pb
    cases pb
    simp [List.enumFrom]
  | cons kv rest ih =>
    intro segs pb
    have hstep : wpStep (segs, pb) kv =
        (segs ++ [EscapeName kv.1 ++ (": ")
            ++ (("$") ++ (("param") ++ toString pb.counter))],
         ParamsBuilder.mk (pb.counter + 1)
           (pb.params ++ [(("param") ++ toString pb.counter, kv.2)])) := rfl
    rw [List.foldl_cons, hstep, ih]
    simp only [List.enumFrom_cons, List.map_cons, ParamsBuilder.mk.injEq,
      paramEntry]
    exact ⟨by simp [List.length_cons]; omega, by simp⟩

theorem foldl_idStep_params (node : String) (properties : MgMap) :
    ∀ (segs : List String) (pb : ParamsBuilder),
      (properties.foldl (idStep node) (segs, pb)).2 =
        ParamsBuilder.mk (pb.counter + properties.length)
          (pb.params ++ (List.enumFrom pb.counter properties).map paramEntry) := by
  induction properties with
  | nil =>
    intro segs pb
    cases pb
    simp [List.enumFrom]
  | cons kv rest ih =>
    intro segs pb
    have hstep : idStep node (segs, pb) kv =
        (segs ++ [node ++ (".") ++ EscapeName kv.1 ++ (" = ")
            ++ (("$") ++ (("param") ++ toString pb.counter))],
         ParamsBuilder.mk (pb.counter + 1)
           (pb.params ++ [(("param") ++ toString pb.counter, kv.2)])) := rfl
    rw [List.foldl_cons, hstep, ih]
    simp only [List.enumFrom_cons, List.map_cons, ParamsBuilder.mk.injEq,
      paramEntry]
    exact ⟨by simp [List.length_cons]; omega, by simp⟩

theorem writePropertiesStr_pb (pb : ParamsBuilder) (properties : MgMap) :
    (WritePropertiesStr pb properties).2 =
      ParamsBuilder.mk (pb.counter + properties.length)
        (pb.params ++ (List.enumFrom pb.counter properties).map paramEntry) :=
  foldl_wpStep_params properties [] pb

theorem writeIdMatcherStr_pb (pb : ParamsBuilder) (node : String)
    (id_properties : MgMap) :
    (WriteIdMatcherStr pb node id_properties).2 =
      ParamsBuilder.mk (pb.counter + id_properties.length)
        (pb.params ++ (List.enumFrom pb.counter id_properties).map paramEntry) :=
  foldl_idStep_params node id_properties [] pb

/-- C9: identifiers in emitted statements are rendered by `EscapeName`,
which wraps its argument in backticks and doubles every embedded backtick
(it equals the spec-side escape), and the bound parameters of the two
parameterized statements are named param0, param1, ... in order of first
appearance within the single statement: node properties in map order;
for relationships the id1 entries, then the id2 entries, then the edge
properties. -/
theorem statement_escaping_and_param_naming :
    (∀ s : String, EscapeName s = specBacktickEscape s)
    ∧ (∀ label : String, CreateLabelIndexStmt label =
        ("CREATE INDEX ON :") ++ specBacktickEscape label ++ (";"))
    ∧ (∀ (labels : List String) (properties : MgMap),
        (CreateNodeStmt labels properties).2 =
          (List.enumFrom 0 properties).map paramEntry)
    ∧ (∀ (label1 : String) (id1 : MgMap) (label2 : String) (id2 : MgMap)
        (edge_type : String) (properties : MgMap) (use_merge : Bool),
        (CreateRelationshipsStmt label1 id1 label2 id2 edge_type properties
            use_merge).2 =
          (List.enumFrom 0 (id1 ++ id2 ++ properties)).map paramEntry) := by
  refine ⟨?_, ?_, ?_, ?_⟩
  · intro s
    rw [EscapeName, specBacktickEscape, escapeChars_eq_flatMap]
  · intro label
    rw [CreateLabelIndexStmt, EscapeName, specBacktickEscape,
      escapeChars_eq_flatMap]
  · intro labels properties
    show ((WritePropertiesStr (ParamsBuilder.mk 0 []) properties).2).params = _
    rw [writePropertiesStr_pb]
    simp
  · intro label1 id1 label2 id2 edge_type properties use_merge
    unfold CreateRelationshipsStmt
    by_cases hprops : properties.isEmpty
    · simp only [hprops, if_true]
      rw [writeIdMatcherStr_pb, writeIdMatcherStr_pb]
      simp only [List.isEmpty_iff] at hprops
      simp [hprops, List.enumFrom_append, List.map_append]
    · simp only [hprops, if_false]
      rw [writeIdMatcherStr_pb, writeIdMatcherStr_pb, writePropertiesStr_pb]
      simp [List.enumFrom_append, List.map_append, Nat.add_assoc]

/-! Table enumeration of the two schema reflectors, over the (schema, name)
rows returned by the information-schema query. -/

/-- source/mysql.cpp `ListAllTables`: `CHECK(rows.count() > 0)` aborts the
migration fatally when the query returns no rows; otherwise the (schema,
name) pairs are returned.  `MysqlSource::GetSchemaInfo` calls this first,
so the abort precedes all other reflection work. -/
def MysqlListAllTables (rows : List (String × String)) :
    Except String (List (String × String)) :=
  if rows.isEmpty then Except.error ("No tables found in the database!")
  else Except.ok rows

/-- source/postgresql.cpp `ListAllTables`: the fetch loop simply collects
the (schema, name) pairs; an empty result yields an empty table list with
no error. -/
def PgListAllTables (rows : List (String × String)) :
    List (String × String) :=
  rows

/-- C10: on a source database with no base tables the MySQL reflector
aborts fatally, while the PostgreSQL reflector returns an empty table list
and the planner run over the resulting empty SchemaInfo completes having
emitted nothing.  On a non-empty table list the MySQL reflector does not
abort. -/
theorem empty_database_reflection :
    MysqlListAllTables [] = Except.error ("No tables found in the database!")
    ∧ (∀ rows : List (String × String), rows ≠ [] →
        MysqlListAllTables rows = Except.ok rows)
    ∧ PgListAllTables [] = []
    ∧ MigrateSqlDatabase (SchemaInfo.mk [] [] [] []) (fun _ => []) = some [] := by
  refine ⟨rfl, ?_, rfl, rfl⟩
  intro rows hrows
  rw [MysqlListAllTables, if_neg (by simpa using hrows)]

/-- Witness for C10 at a one-table database: the MySQL reflector passes the
table list through. -/
theorem empty_database_reflection_witness :
    MysqlListAllTables [(("mydb"), ("users"))]
      = Except.ok [(("mydb"), ("users"))] :=
  empty_database_reflection.2.1 [(("mydb"), ("users"))] (by decide)

end Mgmigrate
